import Mathlib

/-
Verification of the NodeNormalization identifier-equivalence core.

This file shallowly embeds the Python sources of the repository:
  node_normalizer/load_compendium.py  (new-style compendium ingestion CLI)
  node_normalizer/loader.py           (class-based NodeLoader ingestion)
  node_normalizer/server.py           (thin FastAPI caller)
  tests/test_norm.py                  (pins the resolution output shape)
Python dicts are modelled as association lists with insert-or-update
semantics (first-insertion key order is preserved, exactly as in CPython),
Python exceptions as an `Except PyErr` outcome, and the external Redis
store and biolink toolkit as explicit data respectively oracle functions,
following the spec, which declares both to be external collaborators.
-/

set_option maxHeartbeats 1000000

/-- Python exception kinds that the embedded code can raise. -/
inductive PyErr where
  | attributeError
  | nameError
  | keyError
  | indexError
  | jsonDecodeError
  | ioError
deriving DecidableEq

/-- Python dict assignment `d[k] = v`: update the first binding of `k` in
place, or append a new binding at the end (CPython keeps first-insertion
key order). -/
def dinsert {α : Type} (k : String) (v : α) : List (String × α) → List (String × α)
  | [] => [(k, v)]
  | e :: rest => if e.1 = k then (k, v) :: rest else e :: dinsert k v rest

/-- Python dict lookup `d.get(k)`: the first binding of `k`, if any. -/
def dget {α : Type} (k : String) : List (String × α) → Option α
  | [] => none
  | e :: rest => if e.1 = k then some e.2 else dget k rest

/-- ASCII uppercasing of one character, as Python str.upper acts on the
ASCII CURIE strings this system stores. -/
def upChar (c : Char) : Char :=
  if c.toNat ≥ 97 && c.toNat ≤ 122 then Char.ofNat (c.toNat - 32) else c

/-- Python `s.upper()` on ASCII strings. -/
def pyUpper (s : String) : String := ⟨s.data.map upChar⟩

/-- Characters before the first colon. -/
def takeUntilColon : List Char → List Char
  | [] => []
  | c :: rest => if c = ':' then [] else c :: takeUntilColon rest

/-- Python `s.split(":")[0]`: the CURIE source before the first colon
(the whole string when there is no colon). -/
def curiePfx (s : String) : String := ⟨takeUntilColon s.data⟩

/-- Redis `KEYS "file-*"`: does the key start with "file-"? -/
def matchesFileGlob (k : String) : Bool := "file-".data.isPrefixOf k.data

/-- One entry of the "identifiers" list of a new-style compendium line:
keys "i" (identifier) and optional "l" (label). -/
structure Member where
  i : String
  l : Option String
deriving DecidableEq

/-- A parsed new-style compendium line:
type, optional ic, and the ordered identifiers list. -/
structure Rec where
  type : String
  ic : Option String
  identifiers : List Member
deriving DecidableEq

/-- Outcome of `json.loads` on one compendium line: a record, or a raised
parse error (shape errors such as a missing "identifiers" key are folded
into the error case). -/
abbrev JLine := Except PyErr Rec

/-- Per-source-prefix counts (Python dict prefix -> int). -/
abbrev PfxMap := List (String × Int)

/-- Per-semantic-type prefix counts (source_prefixes in the Python code). -/
abbrev SPMap := List (String × PfxMap)

/-- The decoded per-file partials gathered by the merge, in key order. -/
abbrev MetaList := List (String × SPMap)

/-- The in-memory state of one run of load_compendium.py's
load_compendium: the memoized ancestor map, the per-file prefix counts,
and the contents staged for the four write namespaces. -/
structure LoadState where
  ancestor_map : List (String × List String)
  source_prefixes : SPMap
  term2id : List (String × String)
  id2eqids : List (String × List Member)
  id2type : List (String × String)
  info_content : List (String × String)
deriving DecidableEq

def initState : LoadState := ⟨[], [], [], [], [], []⟩

/-- load_compendium.py get_ancestors (lines 158-166): memoized call to the
external biolink toolkit (modelled as the oracle `tk`, which yields the
class_uri list and may raise); the input type is prepended when the raw
answer omits it. -/
def get_ancestors (tk : String → Except PyErr (List String)) (st : LoadState)
    (input_type : String) : LoadState × Except PyErr (List String) :=
  match dget input_type st.ancestor_map with
  | some ancs => (st, Except.ok ancs)
  | none =>
    match tk input_type with
    | Except.error e => (st, Except.error e)
    | Except.ok a =>
      let ancs := if a.contains input_type then a else input_type :: a
      ({ st with ancestor_map := dinsert input_type ancs st.ancestor_map }, Except.ok ancs)

/-- One iteration of the per-line loop of load_compendium.py
load_compendium (lines 186-238).  After parsing, the code takes
identifiers[0] (IndexError when the list is empty) and expands the leaf
type; the first statement of the per-semantic-type loop is
`semantic_types.add(semantic_type)` (line 208) where semantic_types is
the LIST returned by get_ancestors, so the first iteration raises
AttributeError; the loop body below it (prefix counting and the four
pipeline writes, lines 210-238) is unreachable. -/
def processLine (tk : String → Except PyErr (List String)) (st : LoadState)
    (l : JLine) : LoadState × Except PyErr Unit :=
  match l with
  | Except.error e => (st, Except.error e)
  | Except.ok inst =>
    match inst.identifiers.head? with
    | none => (st, Except.error PyErr.indexError)
    | some _ =>
      match get_ancestors tk st inst.type with
      | (st1, Except.error e) => (st1, Except.error e)
      | (st1, Except.ok ancs) =>
        match ancs with
        | [] => (st1, Except.ok ())
        | _ :: _ => (st1, Except.error PyErr.attributeError)

/-- The per-line loop of load_compendium: stops at the first raised
exception, carrying the state reached so far. -/
def runLines (tk : String → Except PyErr (List String)) :
    LoadState → List JLine → LoadState × Except PyErr Unit
  | st, [] => (st, Except.ok ())
  | st, l :: rest =>
    match processLine tk st l with
    | (st1, Except.ok _) => runLines tk st1 rest
    | (st1, Except.error e) => (st1, Except.error e)

/-- The body of the try block of load_compendium.py load_compendium
(lines 170-262): open the file (`openResult` is the outcome of `open` plus
the line iteration) and process every line.  The block-size flush points
(lines 240-258) only execute after a line has been fully processed, which
never happens for a non-empty file, so they are not observable. -/
def loadBody (tk : String → Except PyErr (List String))
    (openResult : Except PyErr (List JLine)) : LoadState × Except PyErr Unit :=
  match openResult with
  | Except.error e => (initState, Except.error e)
  | Except.ok lines => runLines tk initState lines

/-- load_compendium.py load_compendium (lines 149-268): the whole body is
wrapped in try/except Exception (lines 263-265), which turns any raised
exception into the return value False; reaching the end returns True. -/
def load_compendium (tk : String → Except PyErr (List String))
    (openResult : Except PyErr (List JLine)) (block_size : Nat) : Bool :=
  match loadBody tk openResult with
  | (_, Except.ok _) => true
  | (_, Except.error _) => false

/-- A value stored in the curie_to_bl_type_db keyspace, as the merge reads
it back: the per-file partial written as `json.dumps` of a dict with the
single key "source_prefixes" (load, line 72), or a global per-type prefix
map written as `json.dumps` of the counts (merge, line 138). -/
inductive DbVal where
  | fileMeta (source_prefixes : SPMap)
  | pfxJson (m : PfxMap)
deriving DecidableEq

def isFileMeta : DbVal → Bool
  | DbVal.fileMeta _ => true
  | DbVal.pfxJson _ => false

abbrev KV := List (String × DbVal)

/-- The curie_to_bl_type_db database: its string-valued keys plus the
"semantic_types" redis list. -/
structure TypesDb where
  kv : KV
  semantic_types : List String
deriving DecidableEq

/-- merge_semantic_meta_data lines 95-100: `KEYS "file-*"` (every key
starting with "file-", in store order) filtered by `key != "semantic_types"`. -/
def metaFilter (ks : List String) : List String :=
  (ks.filter (fun k => matchesFileGlob k)).filter (fun k => !(k == "semantic_types"))

def metaKeys (db : TypesDb) : List String := metaFilter (db.kv.map Prod.fst)

/-- merge_semantic_meta_data lines 103-120: GET every meta key, keep the
truthy answers, `json.loads` each and take its "source_prefixes" field.
A value that does not carry that field raises KeyError. -/
def collectMeta (kv : KV) : List String → Except PyErr MetaList
  | [] => Except.ok []
  | k :: rest =>
    match dget k kv with
    | none => collectMeta kv rest
    | some (DbVal.fileMeta m) =>
      match collectMeta kv rest with
      | Except.ok r => Except.ok ((k, m) :: r)
      | Except.error e => Except.error e
    | some (DbVal.pfxJson _) => Except.error PyErr.keyError

/-- merge lines 124-128: fold one prefix->count pair into the accumulating
per-type map (`.get(curie_prefix, 0)` then `+= count`). -/
def bumpPfx (cc : PfxMap) (e : String × Int) : PfxMap :=
  dinsert e.1 ((dget e.1 cc).getD 0 + e.2) cc

/-- merge lines 121-128: fold one file's partial into the accumulating
sources map, type by type. -/
def addFile : SPMap → SPMap → SPMap
  | sp, [] => sp
  | sp, tc :: rest =>
    addFile (dinsert tc.1 (List.foldl bumpPfx ((dget tc.1 sp).getD []) tc.2) sp) rest

def buildSourcesAux : SPMap → MetaList → SPMap
  | sp, [] => sp
  | sp, kd :: rest => buildSourcesAux (addFile sp kd.2) rest

/-- merge lines 117-128: the aggregate recomputed from scratch (the
accumulator starts empty on every run). -/
def buildSources (metas : MetaList) : SPMap := buildSourcesAux [] metas

/-- The aggregate a merge run computes (and writes, one SET per type, in
key order) from the current store. -/
def mergeSources (db : TypesDb) : Except PyErr SPMap :=
  match collectMeta db.kv (metaKeys db) with
  | Except.ok metas => Except.ok (buildSources metas)
  | Except.error e => Except.error e

/-- Total variant of mergeSources used to state hypotheses decidably. -/
def mergeSourcesD (db : TypesDb) : SPMap :=
  match mergeSources db with
  | Except.ok sp => sp
  | Except.error _ => []

/-- merge lines 136-138: SET one global prefix map per semantic type. -/
def setGlobals : KV → SPMap → KV
  | kv, [] => kv
  | kv, tp :: rest => setGlobals (dinsert tp.1 (DbVal.pfxJson tp.2) kv) rest

/-- load_compendium.py merge_semantic_meta_data (lines 91-144): recompute
the aggregate from the persisted per-file partials, LPUSH the semantic
type names onto the "semantic_types" list (only when non-empty, line 132),
and SET one prefix map per type. -/
def merge_semantic_meta_data (db : TypesDb) : Except PyErr TypesDb :=
  match mergeSources db with
  | Except.error e => Except.error e
  | Except.ok sp =>
    Except.ok { kv := setGlobals db.kv sp,
                semantic_types :=
                  if sp.isEmpty then db.semantic_types
                  else (sp.map Prod.fst).reverse ++ db.semantic_types }

/-- The count the claim compares against: the entry of one type's map for
one CURIE source, 0 when absent. -/
def countOf (sp : SPMap) (t p : String) : Int :=
  (dget p ((dget t sp).getD [])).getD 0

/-- The count one inner prefix map contributes for source p (summing every
matching pair, so duplicate keys in a decoded map still count fully). -/
def ccSum (p : String) : PfxMap → Int
  | [] => 0
  | e :: rest => (if e.1 = p then e.2 else 0) + ccSum p rest

/-- The count one file's partial contributes for (t, p). -/
def fileSum (t p : String) : SPMap → Int
  | [] => 0
  | tc :: rest => (if tc.1 = t then ccSum p tc.2 else 0) + fileSum t p rest

/-- The sum of the (t, p) counts across all per-file partials. -/
def allFilesSum (t p : String) : MetaList → Int
  | [] => 0
  | kd :: rest => fileSum t p kd.2 + allFilesSum t p rest

/-- load_compendium.py load (lines 20-88).  Every file is first checked by
validate_compendium (modelled as the predicate argument, see
validate_compendia below); any invalid file makes load return False before
ingesting anything (lines 52-55).  Otherwise the first loop iteration
calls load_compendium and then evaluates
`json.dumps({"source_prefixes": source_prefixes})` (line 72) — but
source_prefixes is a local variable of load_compendium, not defined in
load's scope, so this raises NameError, which the except block re-raises
(lines 83-85).  With no files the loops are skipped and the merge runs. -/
def load (validate : List JLine → Bool) (tk : String → Except PyErr (List String))
    (db : TypesDb) (block_size : Nat) (files : List (List JLine)) : Except PyErr Bool :=
  if files.all validate then
    match files with
    | [] =>
      match merge_semantic_meta_data db with
      | Except.ok _ => Except.ok true
      | Except.error e => Except.error e
    | f :: _ =>
      let _loaded := load_compendium tk (Except.ok f) block_size
      Except.error PyErr.nameError
  else Except.ok false

/-- The id object of a resolution result: identifier plus optional label. -/
structure RNodeId where
  identifier : String
  label : Option String
deriving DecidableEq

/-- One resolved node, as assembled by the resolution engine. -/
structure RNode where
  id : RNodeId
  equivalent_identifiers : List RNodeId
  type : List String
deriving DecidableEq

/-- The three read namespaces the resolution engine consumes
(redis databases 0, 1 and 2 in server.py / test_norm.py). -/
structure ResolveStore where
  term2canonical : List (String × String)
  canonical2eqids : List (String × List Member)
  canonical2type : List (String × String)
deriving DecidableEq

def memberToId (m : Member) : RNodeId := ⟨m.i, m.l⟩

/-- Modelled from the spec: node_normalizer/normalizer.py
(get_normalized_nodes, the Resolution Engine of spec section 4.6) is not
under src/ — server.py only imports and forwards to it.  Algorithm from
the spec: uppercase the input identifier, look up term-to-canonical, then
fetch the equivalence list and leaf type for the canonical identifier and
assemble the node; an unknown identifier yields none. -/
def resolveOne (st : ResolveStore) (curie : String) : Option RNode :=
  match dget (pyUpper curie) st.term2canonical with
  | none => none
  | some canonical =>
    let eqids := (dget canonical st.canonical2eqids).getD []
    let tys := match dget canonical st.canonical2type with
      | some t => [t]
      | none => []
    some ⟨⟨canonical, eqids.head?.bind (fun m => m.l)⟩, eqids.map memberToId, tys⟩

/-- Modelled from the spec: the batch entry point behind
/get_normalized_nodes.  Its output SHAPE is pinned by tests/test_norm.py
(test_not_found, test_one_missing, test_all_missing, test_merge), which
assert a JSON object keyed by the input CURIE with null for unknown
identifiers — modelled as a Python dict built by one insertion per input
position, so duplicate inputs collapse into one entry. -/
def get_normalized_nodes (st : ResolveStore) (curies : List String) :
    List (String × Option RNode) :=
  curies.foldl (fun acc curie => dinsert curie (resolveOne st curie) acc) []

def keysOf {α : Type} (l : List (String × α)) : List String := l.map Prod.fst

/-- Input order with duplicates removed, keeping first occurrences. -/
def dedupFirst (l : List String) : List String :=
  l.foldl (fun ks c => if c ∈ ks then ks else ks ++ [c]) []

/-- Read the three resolution namespaces out of an ingestion state. -/
def storeOf (st : LoadState) : ResolveStore :=
  ⟨st.term2id, st.id2eqids, st.id2type⟩

/-- The mock store of tests/test_norm.py (lines 20-28). -/
def testStore : ResolveStore :=
  ⟨[("DOID:3812", "MONDO:0005002"), ("MONDO:0005002", "MONDO:0005002")],
   [("MONDO:0005002", [⟨"MONDO:0005002", none⟩, ⟨"DOID:3812", none⟩])],
   [("MONDO:0005002", "biolink:Disease")]⟩

/-- One entry of the old-style equivalent_identifiers list used by
loader.py: keys "identifier" and optional "label". -/
structure OldId where
  identifier : String
  label : Option String
deriving DecidableEq

/-- A parsed old-style compendium line as read by NodeLoader (loader.py):
an id object, a LIST of semantic types, and the equivalent identifiers. -/
structure OldRec where
  id : OldId
  type : List String
  equivalent_identifiers : List OldId
deriving DecidableEq

abbrev OldJLine := Except PyErr OldRec

/-- The in-memory state of one NodeLoader run: the semantic_types set
(modelled as a duplicate-free list), source_prefixes, and the contents of
the two staged write pipelines. -/
structure NLState where
  semantic_types : List String
  source_prefixes : SPMap
  term2id : List (String × String)
  id2instance : List (String × OldRec)
deriving DecidableEq

def initNL : NLState := ⟨[], [], [], []⟩

/-- Python set.add on the semantic_types set. -/
def setInsert (x : String) (s : List String) : List String :=
  if s.contains x then s else s ++ [x]

/-- loader.py lines 329-344, one equivalent identifier: bump the prefix
count for the current semantic type, then stage BOTH the raw-case and the
uppercased term-to-canonical entries (lines 343-344). -/
def nlMemberStep (iden : String) (semantic_type : String) (st : NLState)
    (eq_id : OldId) : NLState :=
  let spfx := curiePfx eq_id.identifier
  let cur := (dget semantic_type st.source_prefixes).getD []
  let cur2 := match dget spfx cur with
    | none => dinsert spfx 1 cur
    | some n => dinsert spfx (n + 1) cur
  { st with
    source_prefixes := dinsert semantic_type cur2 st.source_prefixes,
    term2id := dinsert (pyUpper eq_id.identifier) iden
                 (dinsert eq_id.identifier iden st.term2id) }

/-- loader.py lines 324-325: create the prefix dict of a semantic type
when it has not been encountered yet. -/
def ensureKey (semantic_type : String) (st : NLState) : NLState :=
  match dget semantic_type st.source_prefixes with
  | none => { st with source_prefixes := dinsert semantic_type [] st.source_prefixes }
  | some _ => st

/-- loader.py lines 319-346, one semantic type of the record: add the type
to the set, ensure its prefix dict exists, process every equivalent
identifier, then stage the id->instance write. -/
def nlTypePass (iden : String) (eqids : List OldId) (inst : OldRec)
    (st : NLState) (semantic_type : String) : NLState :=
  let st1 := { st with semantic_types := setInsert semantic_type st.semantic_types }
  let st2 := ensureKey semantic_type st1
  let st3 := eqids.foldl (nlMemberStep iden semantic_type) st2
  { st3 with id2instance := dinsert iden inst st3.id2instance }

/-- loader.py NodeLoader.load_compendium lines 309-346, one line: the
canonical identifier is instance.id.identifier and the per-type body runs
once per entry of the record's type list. -/
def processOldLine (st : NLState) (inst : OldRec) : NLState :=
  inst.type.foldl (nlTypePass inst.id.identifier inst.equivalent_identifiers inst) st

/-- Did one sampled line pass json.loads plus jsonschema.validate?  The
schema (resources/valid_data_format.json, not under src/) is abstracted as
the Boolean predicate `schema`. -/
def lineOk (schema : OldRec → Bool) : OldJLine → Bool
  | Except.error _ => false
  | Except.ok r => schema r

/-- loader.py validate_compendia (lines 242-259): sample the first 5 lines
(islice(compendium, 5)); any parse or schema failure returns False at
once, otherwise the file is accepted. -/
def validate_compendia (schema : OldRec → Bool) (lines : List OldJLine) : Bool :=
  (lines.take 5).all (lineOk schema)

/-- loader.py load (lines 188-198): each file is ingested only when
validate_compendia accepts it; rejected files are skipped entirely. -/
def filesToIngest (schema : OldRec → Bool) (files : List (List OldJLine)) :
    List (List OldJLine) :=
  files.filter (fun f => validate_compendia schema f)

/-- A toolkit oracle: biolink:Disease has the two-type ancestor chain of
the spec's example; every other type is its own chain. -/
def tkD : String → Except PyErr (List String) := fun t =>
  Except.ok (if t = "biolink:Disease" then ["biolink:Disease", "biolink:NamedThing"] else [t])

/-- The spec's end-to-end example line (section 8), in the new format. -/
def diseaseRec : Rec :=
  ⟨"biolink:Disease", none, [⟨"MONDO:0005002", none⟩, ⟨"DOID:3812", none⟩]⟩

/-- The same example as an old-style record for the NodeLoader path. -/
def oldDiseaseRec : OldRec :=
  ⟨⟨"MONDO:0005002", none⟩, ["biolink:Disease"],
   [⟨"MONDO:0005002", none⟩, ⟨"DOID:3812", none⟩]⟩

/-- A store holding one per-file partial, for witnesses. -/
def dbW : TypesDb :=
  ⟨[("file-a", DbVal.fileMeta [("biolink:Disease", [("MONDO", 3)])])], []⟩

/-- Two per-file partials both counting source X under type T (3 and 5). -/
def metasW : MetaList := [("file-a", [("T", [("X", 3)])]), ("file-b", [("T", [("X", 5)])])]

def metasW2 : MetaList := [("file-b", [("T", [("X", 5)])]), ("file-a", [("T", [("X", 3)])])]

theorem dget_dinsert_self {α : Type} (k : String) (v : α) (d : List (String × α)) :
    dget k (dinsert k v d) = some v := by
  induction d with
  | nil => simp [dinsert, dget]
  | cons e rest ih =>
    by_cases h : e.1 = k
    · simp [dinsert, dget, h]
    · simp [dinsert, dget, h, ih]

theorem dget_dinsert_ne {α : Type} {k k2 : String} (v : α) (d : List (String × α))
    (h : k ≠ k2) : dget k (dinsert k2 v d) = dget k d := by
  have h2 : ¬ (k2 = k) := fun hx => h hx.symm
  induction d with
  | nil => simp [dinsert, dget, h2]
  | cons e rest ih =>
    by_cases he : e.1 = k2
    · simp [dinsert, dget, he, h2]
    · simp [dinsert, dget, he, ih]

theorem dget_dinsert_same_val {α : Type} {k : String} {v : α} {d : List (String × α)}
    (k2 : String) (h : dget k d = some v) : dget k (dinsert k2 v d) = some v := by
  by_cases hk : k = k2
  · subst hk; exact dget_dinsert_self k v d
  · rw [dget_dinsert_ne v d hk]; exact h

theorem dget_mem {α : Type} {k : String} {v : α} :
    ∀ {d : List (String × α)}, dget k d = some v → (k, v) ∈ d := by
  intro d
  induction d with
  | nil => intro h; simp [dget] at h
  | cons e rest ih =>
    intro h
    by_cases he : e.1 = k
    · simp [dget, he] at h
      have : (k, v) = e := by
        cases e; simp_all
      simp [this]
    · simp [dget, he] at h
      exact List.mem_cons_of_mem e (ih h)

theorem keysOf_dinsert {α : Type} (k : String) (v : α) (d : List (String × α)) :
    keysOf (dinsert k v d) =
      if k ∈ keysOf d then keysOf d else keysOf d ++ [k] := by
  induction d with
  | nil => simp [dinsert, keysOf]
  | cons e rest ih =>
    by_cases he : e.1 = k
    · subst he
      simp [dinsert, keysOf]
    · have hne : ¬ (k = e.1) := fun hx => he hx.symm
      simp only [dinsert, if_neg he, keysOf, List.map_cons] at ih ⊢
      by_cases hm : k ∈ List.map Prod.fst rest
      · rw [if_pos hm] at ih
        rw [ih, if_pos (by simp [hne, hm])]
      · rw [if_neg hm] at ih
        rw [ih, if_neg (by simp [hne, hm])]
        simp

theorem keysOf_resolve_fold (st : ResolveStore) :
    ∀ (curies : List String) (acc : List (String × Option RNode)),
      keysOf (curies.foldl (fun a c => dinsert c (resolveOne st c) a) acc) =
        curies.foldl (fun ks c => if c ∈ ks then ks else ks ++ [c]) (keysOf acc) := by
  intro curies
  induction curies with
  | nil => intro acc; simp
  | cons c rest ih =>
    intro acc
    simp only [List.foldl_cons]
    rw [ih, keysOf_dinsert]

theorem dget_resolve_fold (st : ResolveStore) :
    ∀ (curies : List String) (acc : List (String × Option RNode)) (c : String),
      (c ∈ curies ∨ dget c acc = some (resolveOne st c)) →
      dget c (curies.foldl (fun a x => dinsert x (resolveOne st x) a) acc) =
        some (resolveOne st c) := by
  intro curies
  induction curies with
  | nil =>
    intro acc c h
    simp only [List.foldl_nil]
    rcases h with h | h
    · simp at h
    · exact h
  | cons x rest ih =>
    intro acc c h
    simp only [List.foldl_cons]
    apply ih
    rcases h with h | h
    · rcases List.mem_cons.mp h with h | h
      · subst h
        exact Or.inr (dget_dinsert_self c (resolveOne st c) acc)
      · exact Or.inl h
    · by_cases hcx : c = x
      · subst hcx
        exact Or.inr (dget_dinsert_self c (resolveOne st c) acc)
      · exact Or.inr (by rw [dget_dinsert_ne _ _ hcx]; exact h)

theorem dget_get_normalized_nodes (st : ResolveStore) (curies : List String)
    (c : String) (hc : c ∈ curies) :
    dget c (get_normalized_nodes st curies) = some (resolveOne st c) :=
  dget_resolve_fold st curies [] c (Or.inl hc)

/-- Claim C1, counterexample: with the test fixture store, the duplicate
input list [DOID:3812, DOID:3812] does not produce an output of length 2 —
the output is keyed by the input identifier, so the two positions collapse
into one entry, contradicting the claimed one-slot-per-input-position,
never-deduplicated contract. -/
theorem claim_C1_counterexample :
    ¬ ((get_normalized_nodes testStore ["DOID:3812", "DOID:3812"]).length = 2) := by
  decide

/-- Claim C1, amended: resolve returns one entry per DISTINCT input
identifier, keyed by the identifier, in first-occurrence input order;
every input identifier has an entry, whose value is the per-identifier
resolution result (null when unknown); duplicate inputs share one
(identical) entry instead of receiving separate slots. -/
theorem claim_C1_amended (st : ResolveStore) (curies : List String) :
    keysOf (get_normalized_nodes st curies) = dedupFirst curies
    ∧ ∀ c ∈ curies, dget c (get_normalized_nodes st curies) = some (resolveOne st c) := by
  constructor
  · exact keysOf_resolve_fold st curies []
  · intro c hc
    exact dget_get_normalized_nodes st curies c hc

/-- Claim C1, witness: the amended statement evaluated on the test store
with a duplicated known identifier and an unknown one. -/
theorem claim_C1_witness :
    keysOf (get_normalized_nodes testStore ["DOID:3812", "DOID:3812", "UNKNOWN:000000"]) =
      dedupFirst ["DOID:3812", "DOID:3812", "UNKNOWN:000000"]
    ∧ dget "DOID:3812"
        (get_normalized_nodes testStore ["DOID:3812", "DOID:3812", "UNKNOWN:000000"]) =
      some (resolveOne testStore "DOID:3812") := by
  have h := claim_C1_amended testStore ["DOID:3812", "DOID:3812", "UNKNOWN:000000"]
  exact ⟨h.1, h.2 "DOID:3812" (by decide)⟩

/-- Claim C2 (code bug): ingesting the spec's example class through
load_compendium.py fails on its very first record — the per-type loop
calls .add on the list returned by get_ancestors, raising AttributeError —
so load_compendium returns False, no term-to-canonical entry is staged,
and resolving the member identifier DOID:3812 against what was ingested
yields null instead of a node whose id.identifier is MONDO:0005002. -/
theorem claim_C2 :
    load_compendium tkD (Except.ok [Except.ok diseaseRec]) 1000 = false
    ∧ (runLines tkD initState [Except.ok diseaseRec]).1.term2id = []
    ∧ get_normalized_nodes (storeOf (runLines tkD initState [Except.ok diseaseRec]).1)
        ["DOID:3812"] = [("DOID:3812", none)] :=
  ⟨rfl, rfl, rfl⟩

/-- Claim C3, counterexample: after load_compendium.py processes the
example class, the term-to-canonical staging area has no entry under the
raw-case member identifier DOID:3812 (nor any other): the raw-case write
of the claim is commented out in the source (line 231), and the
AttributeError aborts the record before even the uppercase write runs. -/
theorem claim_C3_counterexample :
    dget "DOID:3812" (runLines tkD initState [Except.ok diseaseRec]).1.term2id = none :=
  rfl

/-- Claim C4 (code bug): the ancestor expansion itself works — the example
type expands to [biolink:Disease, biolink:NamedThing] — but ingesting the
example class increments no per-file prefix count at all: the per-type
loop raises AttributeError on its first statement, before any counting. -/
theorem claim_C4 :
    (get_ancestors tkD initState "biolink:Disease").2 =
      Except.ok ["biolink:Disease", "biolink:NamedThing"]
    ∧ (runLines tkD initState [Except.ok diseaseRec]).2 = Except.error PyErr.attributeError
    ∧ (runLines tkD initState [Except.ok diseaseRec]).1.source_prefixes = [] :=
  ⟨rfl, rfl, rfl⟩

/-- Claim C5 (code bug): running load on one valid compendium file never
reaches the per-file persistence SET — evaluating the json.dumps argument
raises NameError because source_prefixes is not defined in load's scope,
and the except block re-raises it. -/
theorem claim_C5 :
    load (fun _ => true) tkD ⟨[], []⟩ 1000 [[Except.ok diseaseRec]] =
      Except.error PyErr.nameError :=
  rfl

/-- Claim C8: an input identifier with no term-to-canonical entry (under
its uppercased lookup key) receives an output entry whose value is null;
the resolution model is a total function, so no error is ever raised for
an unknown identifier. -/
theorem claim_C8 (st : ResolveStore) (curies : List String) (c : String)
    (hc : c ∈ curies) (hu : dget (pyUpper c) st.term2canonical = none) :
    dget c (get_normalized_nodes st curies) = some none := by
  have h := dget_get_normalized_nodes st curies c hc
  rw [h]
  simp [resolveOne, hu]

/-- Claim C8, witness: the unknown identifier of test_not_found. -/
theorem claim_C8_witness :
    dget "UNKNOWN:000000" (get_normalized_nodes testStore ["UNKNOWN:000000"]) = some none :=
  claim_C8 testStore ["UNKNOWN:000000"] "UNKNOWN:000000" (by decide) (by decide)

theorem bump_get (p : String) :
    ∀ (cc : PfxMap) (cur : PfxMap),
      (dget p (List.foldl bumpPfx cur cc)).getD 0 = (dget p cur).getD 0 + ccSum p cc := by
  intro cc
  induction cc with
  | nil => intro cur; simp [ccSum]
  | cons e rest ih =>
    intro cur
    simp only [List.foldl_cons]
    rw [ih]
    by_cases h : e.1 = p
    · subst h
      rw [show bumpPfx cur e = dinsert e.1 ((dget e.1 cur).getD 0 + e.2) cur from rfl]
      rw [dget_dinsert_self]
      simp [ccSum]
      omega
    · have hne : ¬ (p = e.1) := fun hx => h hx.symm
      rw [show bumpPfx cur e = dinsert e.1 ((dget e.1 cur).getD 0 + e.2) cur from rfl]
      rw [dget_dinsert_ne _ _ hne]
      simp [ccSum, h]

theorem addFile_count (t p : String) :
    ∀ (pc : SPMap) (sp : SPMap),
      countOf (addFile sp pc) t p = countOf sp t p + fileSum t p pc := by
  intro pc
  induction pc with
  | nil => intro sp; simp [addFile, fileSum]
  | cons tc rest ih =>
    intro sp
    rw [show addFile sp (tc :: rest) =
          addFile (dinsert tc.1 (List.foldl bumpPfx ((dget tc.1 sp).getD []) tc.2) sp) rest
        from rfl]
    rw [ih]
    by_cases h : tc.1 = t
    · subst h
      have hsp : countOf (dinsert tc.1 (List.foldl bumpPfx ((dget tc.1 sp).getD []) tc.2) sp)
          tc.1 p = countOf sp tc.1 p + ccSum p tc.2 := by
        unfold countOf
        rw [dget_dinsert_self]
        simp only [Option.getD_some]
        rw [bump_get]
      rw [hsp]
      simp [fileSum]
      omega
    · have hne : ¬ (t = tc.1) := fun hx => h hx.symm
      have hsp : countOf (dinsert tc.1 (List.foldl bumpPfx ((dget tc.1 sp).getD []) tc.2) sp)
          t p = countOf sp t p := by
        unfold countOf
        rw [dget_dinsert_ne _ _ hne]
      rw [hsp]
      simp [fileSum, h]

theorem buildAux_count (t p : String) :
    ∀ (metas : MetaList) (sp : SPMap),
      countOf (buildSourcesAux sp metas) t p = countOf sp t p + allFilesSum t p metas := by
  intro metas
  induction metas with
  | nil => intro sp; simp [buildSourcesAux, allFilesSum]
  | cons kd rest ih =>
    intro sp
    rw [show buildSourcesAux sp (kd :: rest) = buildSourcesAux (addFile sp kd.2) rest from rfl]
    rw [ih, addFile_count]
    simp [allFilesSum]
    omega

theorem allFilesSum_eq_map_sum (t p : String) (metas : MetaList) :
    allFilesSum t p metas = (metas.map (fun kd => fileSum t p kd.2)).sum := by
  induction metas with
  | nil => simp [allFilesSum]
  | cons kd rest ih => simp [allFilesSum, ih]

theorem countOf_buildSources (t p : String) (metas : MetaList) :
    countOf (buildSources metas) t p = allFilesSum t p metas := by
  unfold buildSources
  rw [buildAux_count]
  simp [countOf, dget]

/-- Claim C7: the merged global count of every (semantic type, prefix)
pair equals the sum of that pair's counts across all per-file partials,
and the merge is order-independent — two permutations of the same partial
collection build aggregates with identical counts everywhere. -/
theorem claim_C7 (metas metas2 : MetaList) (t p : String) (hperm : metas.Perm metas2) :
    countOf (buildSources metas) t p = allFilesSum t p metas
    ∧ countOf (buildSources metas) t p = countOf (buildSources metas2) t p := by
  refine ⟨countOf_buildSources t p metas, ?_⟩
  rw [countOf_buildSources, countOf_buildSources, allFilesSum_eq_map_sum,
    allFilesSum_eq_map_sum]
  exact (hperm.map (fun kd => fileSum t p kd.2)).sum_eq

/-- Claim C7, witness: two files contributing 3 and 5 for source X under
type T, merged in either order. -/
theorem claim_C7_witness :
    countOf (buildSources metasW) "T" "X" = allFilesSum "T" "X" metasW
    ∧ countOf (buildSources metasW) "T" "X" = countOf (buildSources metasW2) "T" "X" :=
  claim_C7 metasW metasW2 "T" "X" (by decide)

/-- The concrete sum of the C7 example: the merged count is 3 + 5 = 8. -/
theorem example_merge_eight : countOf (buildSources metasW) "T" "X" = 8 := by decide

theorem dget_setGlobals :
    ∀ (sp : SPMap), (∀ tp ∈ sp, matchesFileGlob tp.1 = false) →
      ∀ (k : String), matchesFileGlob k = true →
      ∀ (kv : KV), dget k (setGlobals kv sp) = dget k kv := by
  intro sp
  induction sp with
  | nil => intro _ k _ kv; rfl
  | cons tp rest ih =>
    intro h k hk kv
    rw [show setGlobals kv (tp :: rest) =
          setGlobals (dinsert tp.1 (DbVal.pfxJson tp.2) kv) rest from rfl]
    rw [ih (fun x hx => h x (List.mem_cons_of_mem tp hx)) k hk]
    have hne : k ≠ tp.1 := by
      intro hx
      rw [hx] at hk
      rw [h tp (List.mem_cons_self tp rest)] at hk
      exact Bool.false_ne_true hk
    exact dget_dinsert_ne _ _ hne

theorem metaFilter_append {k : String} (ks : List String)
    (h : matchesFileGlob k = false) : metaFilter (ks ++ [k]) = metaFilter ks := by
  unfold metaFilter
  rw [List.filter_append]
  simp [h]

theorem metaFilter_setGlobals :
    ∀ (sp : SPMap), (∀ tp ∈ sp, matchesFileGlob tp.1 = false) →
      ∀ (kv : KV), metaFilter ((setGlobals kv sp).map Prod.fst) =
        metaFilter (kv.map Prod.fst) := by
  intro sp
  induction sp with
  | nil => intro _ kv; rfl
  | cons tp rest ih =>
    intro h kv
    rw [show setGlobals kv (tp :: rest) =
          setGlobals (dinsert tp.1 (DbVal.pfxJson tp.2) kv) rest from rfl]
    rw [ih (fun x hx => h x (List.mem_cons_of_mem tp hx))]
    have hk := keysOf_dinsert tp.1 (DbVal.pfxJson tp.2) kv
    unfold keysOf at hk
    by_cases hm : tp.1 ∈ kv.map Prod.fst
    · rw [if_pos hm] at hk
      rw [hk]
    · rw [if_neg hm] at hk
      rw [hk, metaFilter_append _ (h tp (List.mem_cons_self tp rest))]

theorem collect_congr :
    ∀ (ks : List String) (kv1 kv2 : KV),
      (∀ k ∈ ks, dget k kv1 = dget k kv2) →
      collectMeta kv1 ks = collectMeta kv2 ks := by
  intro ks
  induction ks with
  | nil => intro kv1 kv2 _; rfl
  | cons k rest ih =>
    intro kv1 kv2 h
    have hk := h k (List.mem_cons_self k rest)
    have hrest := ih kv1 kv2 (fun x hx => h x (List.mem_cons_of_mem k hx))
    unfold collectMeta
    rw [hk, hrest]

theorem collect_ok :
    ∀ (ks : List String) (kv : KV),
      (∀ k ∈ ks, matchesFileGlob k = true) →
      (∀ pr ∈ kv, matchesFileGlob pr.1 = true → isFileMeta pr.2 = true) →
      ∃ metas, collectMeta kv ks = Except.ok metas := by
  intro ks
  induction ks with
  | nil => intro kv _ _; exact ⟨[], rfl⟩
  | cons k rest ih =>
    intro kv hks hkv
    obtain ⟨r, hr⟩ := ih kv (fun x hx => hks x (List.mem_cons_of_mem k hx)) hkv
    unfold collectMeta
    cases hv : dget k kv with
    | none => exact ⟨r, hr⟩
    | some v =>
      have hmem := dget_mem hv
      have hfm := hkv (k, v) hmem (hks k (List.mem_cons_self k rest))
      cases v with
      | fileMeta m =>
        rw [hr]
        exact ⟨(k, m) :: r, rfl⟩
      | pfxJson m => simp [isFileMeta] at hfm

theorem mem_metaKeys_glob {k : String} {db : TypesDb} (h : k ∈ metaKeys db) :
    matchesFileGlob k = true := by
  unfold metaKeys metaFilter at h
  have h1 := List.mem_filter.mp h
  have h2 := List.mem_filter.mp h1.1
  exact h2.2

/-- Claim C6: with every persisted "file-*" key holding a per-file partial
and no computed semantic type itself matching the "file-*" glob, running
the merge twice in a row with no new files succeeds both times and both
runs compute (and therefore SET, type by type, in the same key order) the
very same prefix-statistics aggregate — the aggregate is recomputed from
the unchanged per-file partials, never incremented in place. -/
theorem claim_C6 (db : TypesDb)
    (h1 : ∀ pr ∈ db.kv, matchesFileGlob pr.1 = true → isFileMeta pr.2 = true)
    (h2 : ∀ tp ∈ mergeSourcesD db, matchesFileGlob tp.1 = false) :
    ∃ db1 db2, merge_semantic_meta_data db = Except.ok db1
      ∧ merge_semantic_meta_data db1 = Except.ok db2
      ∧ mergeSources db1 = mergeSources db := by
  obtain ⟨metas, hm⟩ :=
    collect_ok (metaKeys db) db.kv (fun k hk => mem_metaKeys_glob hk) h1
  have hs : mergeSources db = Except.ok (buildSources metas) := by
    unfold mergeSources
    rw [hm]
  have hd : mergeSourcesD db = buildSources metas := by
    unfold mergeSourcesD
    rw [hs]
  rw [hd] at h2
  have hmerge : merge_semantic_meta_data db =
      Except.ok { kv := setGlobals db.kv (buildSources metas),
                  semantic_types :=
                    if (buildSources metas).isEmpty then db.semantic_types
                    else ((buildSources metas).map Prod.fst).reverse ++ db.semantic_types } := by
    unfold merge_semantic_meta_data
    rw [hs]
  have hkeys : metaKeys { kv := setGlobals db.kv (buildSources metas),
                          semantic_types :=
                            if (buildSources metas).isEmpty then db.semantic_types
                            else ((buildSources metas).map Prod.fst).reverse ++
                              db.semantic_types : TypesDb } = metaKeys db := by
    unfold metaKeys
    exact metaFilter_setGlobals (buildSources metas) h2 db.kv
  have hdget : ∀ k ∈ metaKeys db,
      dget k (setGlobals db.kv (buildSources metas)) = dget k db.kv := by
    intro k hk
    exact dget_setGlobals (buildSources metas) h2 k (mem_metaKeys_glob hk) db.kv
  have hcol : collectMeta (setGlobals db.kv (buildSources metas)) (metaKeys db) =
      collectMeta db.kv (metaKeys db) :=
    collect_congr (metaKeys db) _ _ hdget
  have hs1 : mergeSources { kv := setGlobals db.kv (buildSources metas),
                            semantic_types :=
                              if (buildSources metas).isEmpty then db.semantic_types
                              else ((buildSources metas).map Prod.fst).reverse ++
                                db.semantic_types : TypesDb } =
      Except.ok (buildSources metas) := by
    unfold mergeSources
    rw [hkeys]
    show (match collectMeta (setGlobals db.kv (buildSources metas)) (metaKeys db) with
      | Except.ok metas => Except.ok (buildSources metas)
      | Except.error e => Except.error e) = _
    rw [hcol, hm]
  have hrun2 : ∃ db2, merge_semantic_meta_data
      { kv := setGlobals db.kv (buildSources metas),
        semantic_types :=
          if (buildSources metas).isEmpty then db.semantic_types
          else ((buildSources metas).map Prod.fst).reverse ++
            db.semantic_types : TypesDb } = Except.ok db2 := by
    unfold merge_semantic_meta_data
    rw [hs1]
    exact ⟨_, rfl⟩
  obtain ⟨db2, hdb2⟩ := hrun2
  exact ⟨_, db2, hmerge, hdb2, by rw [hs1, hs]⟩

/-- Claim C6, witness: a store with one persisted per-file partial. -/
theorem claim_C6_witness :
    ∃ db1 db2, merge_semantic_meta_data dbW = Except.ok db1
      ∧ merge_semantic_meta_data db1 = Except.ok db2
      ∧ mergeSources db1 = mergeSources dbW :=
  claim_C6 dbW (by decide) (by decide)

theorem ensureKey_term2id (semantic_type : String) (st : NLState) :
    (ensureKey semantic_type st).term2id = st.term2id := by
  unfold ensureKey
  cases dget semantic_type st.source_prefixes <;> rfl

theorem nlMemberFold_pres (iden sty : String) :
    ∀ (eqids : List OldId) (st : NLState) (k : String),
      dget k st.term2id = some iden →
      dget k (List.foldl (nlMemberStep iden sty) st eqids).term2id = some iden := by
  intro eqids
  induction eqids with
  | nil => intro st k h; exact h
  | cons e rest ih =>
    intro st k h
    simp only [List.foldl_cons]
    apply ih
    show dget k (nlMemberStep iden sty st e).term2id = some iden
    rw [show (nlMemberStep iden sty st e).term2id =
        dinsert (pyUpper e.identifier) iden (dinsert e.identifier iden st.term2id) from rfl]
    exact dget_dinsert_same_val _ (dget_dinsert_same_val _ h)

theorem nlMemberFold_mem (iden sty : String) :
    ∀ (eqids : List OldId) (st : NLState) (m : OldId), m ∈ eqids →
      dget m.identifier (List.foldl (nlMemberStep iden sty) st eqids).term2id = some iden
      ∧ dget (pyUpper m.identifier)
          (List.foldl (nlMemberStep iden sty) st eqids).term2id = some iden := by
  intro eqids
  induction eqids with
  | nil => intro st m h; simp at h
  | cons e rest ih =>
    intro st m h
    simp only [List.foldl_cons]
    rcases List.mem_cons.mp h with h | h
    · subst h
      constructor
      · apply nlMemberFold_pres
        rw [show (nlMemberStep iden sty st m).term2id =
            dinsert (pyUpper m.identifier) iden (dinsert m.identifier iden st.term2id) from rfl]
        exact dget_dinsert_same_val _ (dget_dinsert_self _ _ _)
      · apply nlMemberFold_pres
        rw [show (nlMemberStep iden sty st m).term2id =
            dinsert (pyUpper m.identifier) iden (dinsert m.identifier iden st.term2id) from rfl]
        exact dget_dinsert_self _ _ _
    · exact ih _ m h

theorem nlTypePass_pres (iden sty : String) (eqids : List OldId) (inst : OldRec)
    (st : NLState) (k : String) (h : dget k st.term2id = some iden) :
    dget k (nlTypePass iden eqids inst st sty).term2id = some iden := by
  have hrw : (nlTypePass iden eqids inst st sty).term2id =
      (List.foldl (nlMemberStep iden sty)
        (ensureKey sty { st with semantic_types := setInsert sty st.semantic_types })
        eqids).term2id := rfl
  rw [hrw]
  apply nlMemberFold_pres
  rw [ensureKey_term2id]
  exact h

theorem nlTypePass_mem (iden sty : String) (eqids : List OldId) (inst : OldRec)
    (st : NLState) (m : OldId) (hm : m ∈ eqids) :
    dget m.identifier (nlTypePass iden eqids inst st sty).term2id = some iden
    ∧ dget (pyUpper m.identifier) (nlTypePass iden eqids inst st sty).term2id = some iden :=
  nlMemberFold_mem iden sty eqids
    (ensureKey sty { st with semantic_types := setInsert sty st.semantic_types }) m hm

theorem nlTypeFold_pres (iden : String) (eqids : List OldId) (inst : OldRec) :
    ∀ (tys : List String) (st : NLState) (k : String),
      dget k st.term2id = some iden →
      dget k (List.foldl (nlTypePass iden eqids inst) st tys).term2id = some iden := by
  intro tys
  induction tys with
  | nil => intro st k h; exact h
  | cons t rest ih =>
    intro st k h
    simp only [List.foldl_cons]
    exact ih _ k (nlTypePass_pres iden t eqids inst st k h)

/-- Claim C3, amended: in loader.py's NodeLoader.load_compendium, every
member identifier of an ingested class with a non-empty type list receives
TWO term-to-canonical entries, one under its raw-case form and one under
its uppercased form, both mapping to the record's canonical identifier; in
load_compendium.py the raw-case write is commented out and, because of the
semantic-type loop error, no term entry is written at all. -/
theorem claim_C3_amended (st : NLState) (inst : OldRec) (ht : inst.type ≠ []) :
    ∀ m ∈ inst.equivalent_identifiers,
      dget m.identifier (processOldLine st inst).term2id = some inst.id.identifier
      ∧ dget (pyUpper m.identifier) (processOldLine st inst).term2id =
          some inst.id.identifier := by
  intro m hm
  cases hty : inst.type with
  | nil => exact absurd hty ht
  | cons t0 rest =>
    unfold processOldLine
    rw [hty]
    simp only [List.foldl_cons]
    have h0 := nlTypePass_mem inst.id.identifier t0 inst.equivalent_identifiers inst st m hm
    exact ⟨nlTypeFold_pres _ _ _ rest _ _ h0.1, nlTypeFold_pres _ _ _ rest _ _ h0.2⟩

/-- Claim C3, witness: the amended statement on the example class, queried
at the member DOID:3812. -/
theorem claim_C3_witness :
    dget "DOID:3812" (processOldLine initNL oldDiseaseRec).term2id = some "MONDO:0005002"
    ∧ dget (pyUpper "DOID:3812") (processOldLine initNL oldDiseaseRec).term2id =
        some "MONDO:0005002" :=
  claim_C3_amended initNL oldDiseaseRec (by decide) ⟨"DOID:3812", none⟩ (by decide)

/-- Claim C9: the pre-ingestion check accepts a file exactly when every
record of the five-line sample parses and passes schema validation, and
NodeLoader.load ingests exactly the files the check accepts — a rejected
file is not ingested at all. -/
theorem claim_C9 (schema : OldRec → Bool) (lines : List OldJLine)
    (files : List (List OldJLine)) :
    (validate_compendia schema lines = true ↔
      ∀ l ∈ lines.take 5, lineOk schema l = true)
    ∧ ∀ f ∈ files, (f ∈ filesToIngest schema files ↔ validate_compendia schema f = true) := by
  constructor
  · unfold validate_compendia
    exact List.all_eq_true
  · intro f hf
    unfold filesToIngest
    simp [List.mem_filter, hf]

/-- Claim C9, witness: a file whose single line parses and validates. -/
theorem claim_C9_witness :
    ([Except.ok oldDiseaseRec] ∈
        filesToIngest (fun r => !r.equivalent_identifiers.isEmpty) [[Except.ok oldDiseaseRec]]
      ↔ validate_compendia (fun r => !r.equivalent_identifiers.isEmpty)
          [Except.ok oldDiseaseRec] = true) :=
  (claim_C9 (fun r => !r.equivalent_identifiers.isEmpty) [Except.ok oldDiseaseRec]
    [[Except.ok oldDiseaseRec]]).2 [Except.ok oldDiseaseRec] (List.mem_singleton.mpr rfl)

/-- Claim C10: load_compendium returns a Boolean for every input (the
try/except swallows every modelled exception rather than propagating it):
it returns False whenever the file fails to open, and in general it
returns True exactly when the whole body ran without raising. -/
theorem claim_C10 (tk : String → Except PyErr (List String))
    (openResult : Except PyErr (List JLine)) (block_size : Nat) :
    (load_compendium tk openResult block_size = true
      ∨ load_compendium tk openResult block_size = false)
    ∧ (∀ e, openResult = Except.error e → load_compendium tk openResult block_size = false)
    ∧ (load_compendium tk openResult block_size = true ↔
        (loadBody tk openResult).2 = Except.ok ()) := by
  refine ⟨?_, ?_, ?_⟩
  · cases h : load_compendium tk openResult block_size
    · exact Or.inr rfl
    · exact Or.inl rfl
  · intro e he
    subst he
    rfl
  · unfold load_compendium
    cases h : loadBody tk openResult with
    | mk st r =>
      cases r with
      | ok u => cases u; simp
      | error e => simp

/-- Claim C10, witness: a file whose open raises is reported as False. -/
theorem claim_C10_witness :
    load_compendium tkD (Except.error PyErr.ioError) 1000 = false :=
  (claim_C10 tkD (Except.error PyErr.ioError) 1000).2.1 PyErr.ioError rfl

/-- The resolution model reproduces the assertions of tests/test_norm.py:
test_not_found's null slot, test_one_missing's two entries, test_merge's
type, and the spec's lowercase end-to-end example doid:3812. -/
theorem model_matches_tests :
    get_normalized_nodes testStore ["UNKNOWN:000000"] = [("UNKNOWN:000000", none)]
    ∧ (get_normalized_nodes testStore ["UNKNOWN:000000", "DOID:3812"]).length = 2
    ∧ (resolveOne testStore "DOID:3812").map (fun n => n.id.identifier) =
        some "MONDO:0005002"
    ∧ (resolveOne testStore "MONDO:0005002").map (fun n => n.type) =
        some ["biolink:Disease"]
    ∧ (resolveOne testStore "doid:3812").map (fun n => n.id.identifier) =
        some "MONDO:0005002" :=
  ⟨rfl, rfl, rfl, rfl, rfl⟩

/-- The NodeLoader path really stages both case forms of a member with a
mixed-case identifier, both mapping to the canonical identifier. -/
theorem loader_mixed_case_example :
    dget "doid:3812"
      (processOldLine initNL
        ⟨⟨"MONDO:0005002", none⟩, ["biolink:Disease"], [⟨"doid:3812", none⟩]⟩).term2id =
      some "MONDO:0005002"
    ∧ dget "DOID:3812"
        (processOldLine initNL
          ⟨⟨"MONDO:0005002", none⟩, ["biolink:Disease"], [⟨"doid:3812", none⟩]⟩).term2id =
        some "MONDO:0005002" :=
  ⟨rfl, rfl⟩
